import Mathlib

set_option maxRecDepth 40000

/-!
A shallow embedding, in Lean 4, of the protocol engine of the `battleye`
RCon client (TypeScript): the packet codec (`src/lib/packet.ts`) and the
per-connection state machine (the `Connection` class of `src/lib/connection.ts`,
shipped inside the concatenated `src/lib/errors.ts` source file).

Conventions of the embedding:
* Node `Buffer`s and JavaScript strings are modelled as `List Nat` of byte
  values: the code only ever compares, slices and concatenates them, and
  `toString()` round-trips with `write` on the byte level.
* `Buffer.readInt32BE` / `readInt32LE` return signed 32-bit values, modelled
  as `Int` via `toSigned32`.
* Fallible code (`throw`) is modelled with `Except`.
* The dynamic attribute bag of `Packet` is modelled as a structure of
  `Option` fields; a JavaScript `undefined` is `none`.
-/

namespace BattlEye

/-- Byte strings: each element is intended to be `< 256`. -/
abbrev Bytes := List Nat

/-- Little-endian 4-byte encoding of a 32-bit value, as `Buffer.writeInt32LE`
lays it out (least significant byte first). -/
def bytesLE4 (n : Nat) : Bytes :=
  [n % 256, n / 256 % 256, n / 65536 % 256, n / 16777216 % 256]

/-- Big-endian 4-byte encoding of a 32-bit value, as `Buffer.writeInt32BE`
lays it out (most significant byte first). -/
def bytesBE4 (n : Nat) : Bytes :=
  [n / 16777216 % 256, n / 65536 % 256, n / 256 % 256, n % 256]

/-- Reassemble a 32-bit unsigned value from four big-endian bytes of a list
at `off` (missing bytes read as 0; every use in the code is in bounds). -/
def natFromBE4 (l : Bytes) (off : Nat) : Nat :=
  ((l.getD off 0 * 256 + l.getD (off + 1) 0) * 256 + l.getD (off + 2) 0) * 256
    + l.getD (off + 3) 0

/-- Reassemble a 32-bit unsigned value from four little-endian bytes. -/
def natFromLE4 (l : Bytes) (off : Nat) : Nat :=
  ((l.getD (off + 3) 0 * 256 + l.getD (off + 2) 0) * 256 + l.getD (off + 1) 0) * 256
    + l.getD off 0

/-- Two's-complement reading of an unsigned 32-bit value, as Node's
`readInt32BE`/`readInt32LE` return it. -/
def toSigned32 (n : Nat) : Int :=
  if n < 2147483648 then (n : Int) else (n : Int) - 4294967296

/-- `Buffer.readInt32BE(off)`. -/
def readInt32BE (l : Bytes) (off : Nat) : Int := toSigned32 (natFromBE4 l off)

/-- `Buffer.readInt32LE(off)`. -/
def readInt32LE (l : Bytes) (off : Nat) : Int := toSigned32 (natFromLE4 l off)

/-- `Buffer.writeInt32BE(v, ...)`: the four bytes written for a signed 32-bit
value `v` (two's complement, big-endian). -/
def int32ToBytesBE (v : Int) : Bytes := bytesBE4 (v % 4294967296).toNat

/-- JavaScript array element assignment `a[i] = x` on an array of holes:
unlike `List.set`, an assignment past the end grows the array, padding
with holes (`none`). -/
def jsSet (l : List (Option α)) (i : Nat) (x : α) : List (Option α) :=
  if i < l.length then l.set i (some x)
  else l ++ List.replicate (i - l.length) none ++ [some x]

/-! ## CRC32

Modelled from the spec: the repository imports `./crc32` in
`src/lib/packet.ts`, but `src/lib/crc32.ts` itself is not part of the
sources given; the spec (§4.1) pins it to "a standard IEEE CRC-32 over the
packet payload", with the result returned as a 4-byte little-endian buffer.
This is the standard reflected IEEE CRC-32 (polynomial `0xEDB88320`). -/

/-- One bit-step of the reflected IEEE CRC-32. -/
def crcRound (c : Nat) : Nat :=
  if c % 2 = 1 then (c / 2) ^^^ 0xEDB88320 else c / 2

/-- Fold one byte into the running CRC (8 bit-steps). -/
def crcByte (c b : Nat) : Nat := crcRound^[8] (c ^^^ b % 256)

/-- IEEE CRC-32 of a byte string, as a 32-bit unsigned value. -/
def crc32Nat (bs : Bytes) : Nat := (bs.foldl crcByte 0xFFFFFFFF) ^^^ 0xFFFFFFFF

/-- Modelled from the spec: `crc32(buffer)` of the missing `src/lib/crc32.ts`,
returning the CRC as a 4-byte buffer holding the value little-endian. -/
def crc32 (bs : Bytes) : Bytes := bytesLE4 (crc32Nat bs)

theorem xor_lt_32 (a b : Nat) (ha : a < 4294967296) (hb : b < 4294967296) :
    a ^^^ b < 4294967296 := by
  have h : (4294967296 : Nat) = 2 ^ 32 := by norm_num
  rw [h] at ha hb ⊢
  exact Nat.xor_lt_two_pow ha hb

theorem crcRound_lt (c : Nat) (h : c < 4294967296) : crcRound c < 4294967296 := by
  unfold crcRound
  split
  · exact xor_lt_32 _ _ (Nat.lt_of_le_of_lt (Nat.div_le_self c 2) h) (by norm_num)
  · exact Nat.lt_of_le_of_lt (Nat.div_le_self c 2) h

theorem crcByte_lt (c b : Nat) (h : c < 4294967296) : crcByte c b < 4294967296 := by
  unfold crcByte
  have hx : c ^^^ b % 256 < 4294967296 :=
    xor_lt_32 _ _ h (Nat.lt_trans (Nat.mod_lt b (by norm_num)) (by norm_num))
  have hiter : ∀ (k : Nat) (x : Nat), x < 4294967296 → crcRound^[k] x < 4294967296 := by
    intro k
    induction k with
    | zero => intro x hx0; simpa using hx0
    | succ k ih =>
      intro x hx0
      rw [Function.iterate_succ_apply]
      exact ih _ (crcRound_lt x hx0)
  exact hiter 8 _ hx

/-- The CRC word always fits 32 bits. -/
theorem crc32Nat_lt (bs : Bytes) : crc32Nat bs < 4294967296 := by
  unfold crc32Nat
  have hfold : ∀ (l : Bytes) (c : Nat), c < 4294967296 → l.foldl crcByte c < 4294967296 := by
    intro l
    induction l with
    | nil => intro c hc; simpa using hc
    | cons a l ih => intro c hc; exact ih _ (crcByte_lt c a hc)
  exact xor_lt_32 _ _ (hfold bs 0xFFFFFFFF (by norm_num)) (by norm_num)

instance {ε α : Type} [DecidableEq ε] [DecidableEq α] : DecidableEq (Except ε α) := fun x y =>
  match x, y with
  | .ok a, .ok b =>
    if h : a = b then .isTrue (by rw [h]) else .isFalse (by intro he; cases he; exact h rfl)
  | .error a, .error b =>
    if h : a = b then .isTrue (by rw [h]) else .isFalse (by intro he; cases he; exact h rfl)
  | .ok _, .error _ => .isFalse (by intro he; cases he)
  | .error _, .ok _ => .isFalse (by intro he; cases he)

/-! ## Errors (`src/lib/errors.ts`) -/

/-- The error classes of `src/lib/errors.ts` that the embedded code can
raise or pass to a promise rejection. `writeRange` stands for Node's own
`ERR_OUT_OF_RANGE` raised by `Buffer.writeUInt8` on a value outside
`[0,255]` (the `sequence` getter returns `-1` when the attribute is unset). -/
inductive BEErr
  | noConnection
  | noPassword
  | noCommand
  | maxRetries
  | unknownCommand (cmd : Option Bytes)
  | unknownPacketType (t : Nat)
  | serverTimeout
  | serverDisconnect
  | invalidPassword
  | invalidPacket
  | invalidSequence (n : Int)
  | packetOverflow
  | writeRange
deriving DecidableEq, Repr

/-- Failures of `Packet.FROM`. `rangeError` stands for Node's
`ERR_OUT_OF_RANGE` raised by `payload.readUInt8(5)` when the payload is
exactly 5 bytes long in the multipart branch. -/
inductive DecodeErr
  | packetError (msg : String)
  | unknownPacketType (t : Nat)
  | rangeError
deriving DecidableEq, Repr

/-! ## Packet model (`src/lib/packet.ts`) -/

/-- `PacketType` enum: Login = 0, Command = 1, Message = 2. -/
inductive PacketType
  | login
  | command
  | message
deriving DecidableEq, Repr

/-- Numeric value of a `PacketType`, as written to the wire. -/
def PacketType.toByte : PacketType → Nat
  | .login => 0
  | .command => 1
  | .message => 2

/-- `PacketDirection` enum: Request = 0, Reply = 1, Split = 2. -/
inductive PacketDirection
  | request
  | reply
  | split
deriving DecidableEq, Repr

/-- The dynamic attribute bag `IPacketAttributes` of a `Packet`, as a
structure of optional fields (`none` is JavaScript `undefined`).
`timestamp` and `sent` always hold numbers in the code (0 standing for
the unset/falsy state). -/
structure Attributes where
  timestamp : Nat := 0
  sent : Nat := 0
  sequence : Option Nat := none
  total : Option Nat := none
  index : Option Nat := none
  data : Option Bytes := none
  password : Option Bytes := none
  command : Option Bytes := none
  message : Option Bytes := none
  login : Option Bool := none
  part : Option Bytes := none
  error : Option BEErr := none
deriving DecidableEq, Repr

/-- A framed protocol message: `type`, `direction` and the attribute bag. -/
structure Packet where
  type : PacketType
  direction : PacketDirection
  attrs : Attributes
deriving DecidableEq, Repr

namespace Packet

/-- The `sequence` getter: the attribute if it is a number, else `-1`. -/
def sequence (p : Packet) : Int := (p.attrs.sequence.map (Int.ofNat ·)).getD (-1)

/-- The `sent` getter: the attribute if it is a number, else `0`. -/
def sent (p : Packet) : Nat := p.attrs.sent

/-- The tail of `Packet.FROM` from the `0xFF`-flag check onward, acting on
the payload (everything after the six-byte header). Split out of `FROM` so
that encode/decode lemmas can reason about the payload alone once the
header and checksum checks are discharged. -/
def decodeBody (payload : Bytes) : Except DecodeErr Packet :=
  if payload.getD 0 0 ≠ 0xFF then
    .error (.packetError "Packet missing 0xFF flag after checksum.")
  else
    let ty := payload.getD 1 0
    if ty = 0 then
      .ok ⟨.login, .reply, { login := some (payload.getD 2 0 = 1) }⟩
    else if ty = 1 then
      if payload.length > 4 ∧ payload.getD 3 0 = 0 then
        if 5 < payload.length then
          .ok ⟨.command, .split,
            { sequence := some (payload.getD 2 0), total := some (payload.getD 4 0),
              index := some (payload.getD 5 0), part := some (payload.drop 6) }⟩
        else
          .error .rangeError
      else
        .ok ⟨.command, .reply,
          { sequence := some (payload.getD 2 0), data := some (payload.drop 3) }⟩
    else if ty = 2 then
      .ok ⟨.message, .reply,
        { sequence := some (payload.getD 2 0), message := some (payload.drop 3) }⟩
    else
      .error (.unknownPacketType ty)

/-- `Packet.FROM(buffer)` of `src/lib/packet.ts`: decode a framed buffer.
The header test `buffer.toString('utf8', 0, 2) !== 'BE'` is modelled as a
comparison of the first two bytes with ASCII `B`, `E` (0x42, 0x45): UTF-8
decoding maps exactly that byte pair, and no other, to the string `BE`. -/
def FROM (buffer : Bytes) : Except DecodeErr Packet :=
  if buffer.length < 9 then
    .error (.packetError "Packet must contain at least 9 bytes")
  else if ¬(buffer.getD 0 0 = 0x42 ∧ buffer.getD 1 0 = 0x45) then
    .error (.packetError "Invalid header text")
  else
    let payload := buffer.drop 6
    let checksum := readInt32BE buffer 2
    let crc := readInt32LE (crc32 payload) 0
    if checksum ≠ crc then
      .error (.packetError "Packet checksum verification failed.")
    else
      decodeBody payload

/-- The six-byte frame header written by `serialize`: ASCII `B`, `E`, then
`header.writeInt32BE(crc32(payload).readInt32LE(0), 2)`. -/
def mkHeader (payload : Bytes) : Bytes :=
  0x42 :: 0x45 :: int32ToBytesBE (readInt32LE (crc32 payload) 0)

/-- `Packet.serialize()` of `src/lib/packet.ts`, returning the wire buffer.
The `valid` guard of the source is always true here (type and direction are
members of their enums by construction). `writeUInt8(this.sequence, 2)`
throws Node's range error when the sequence attribute is unset (the getter
yields `-1`) or above 255; this is the `writeRange` case. The source also
increments the `sent` attribute as a side effect, modelled separately by
`serializeBump`. -/
def serialize (p : Packet) : Except BEErr Bytes :=
  match p.type with
  | .login =>
    match p.attrs.password with
    | none => .error .noPassword
    | some pw =>
      let payload := 0xFF :: 0 :: pw
      .ok (mkHeader payload ++ payload)
  | .command =>
    match p.attrs.command with
    | none => .error .noCommand
    | some cmd =>
      match p.attrs.sequence with
      | none => .error .writeRange
      | some s =>
        if s ≤ 255 then
          let payload := 0xFF :: 1 :: s :: cmd
          .ok (mkHeader payload ++ payload)
        else
          .error .writeRange
  | .message =>
    match p.attrs.sequence with
    | none => .error .writeRange
    | some s =>
      if s ≤ 255 then
        let payload := [0xFF, 2, s]
        .ok (mkHeader payload ++ payload)
      else
        .error .writeRange

/-- The `sent`-increment side effect of a successful `serialize`:
`this.attributes.sent = this.attributes.sent ? this.attributes.sent + 1 : 1`. -/
def serializeBump (p : Packet) : Packet :=
  { p with attrs := { p.attrs with sent := if p.attrs.sent ≠ 0 then p.attrs.sent + 1 else 1 } }

end Packet

/-! ## Connection state machine

The `Connection` class of `src/lib/connection.ts` (shipped inside the
concatenated `src/lib/errors.ts`), restricted to its protocol state: the
`connected` flag, the wrapping sequence counter `info.sequence`, the
pending-request array `this.packets`, the reassembly array
`this.multipart`, and `info.lastPacket`.

The two arrays are modelled as functions from `Int` (the `sequence`
getter of `Packet` is `-1` when the attribute is unset; JavaScript array
indexing accepts every such value). The pending array tolerates holes at
every index, so it is a total function into `Option Pending`; the
reassembly array is read with `.length` before any initialization check,
so a slot that was never initialized must be distinguished from an empty
one: `multipart` maps each index to `Option (List (Option Packet))`,
`none` being the `undefined` of an uninitialized slot. The constructor
(and `cleanup`) initialize only indices 0..254 of `new Array(255)`, so
slot 255 — and any negative index — stays `none`, and `recieve` of a
split packet there throws `TypeError` reading `.length` of `undefined`.
Promise completions and emitted events are modelled as a list of `Output`
values returned alongside the new state, in the order the code performs
them; `cleanup`'s loop that rejects every surviving pending entry is
summarised by a single `rejectAll` output, and the `TypeError` above — a
rejection of the async `recieve`'s promise — by a `thrownTypeError`
output. The unused `info.sent` / `info.received` statistics are
omitted. -/

/-- A stored `IPacketPromise`: the sent packet and the transmitted byte
count (the resolve/reject callbacks are replaced by `Output` events). -/
structure Pending where
  bytes : Nat
  packet : Packet
deriving DecidableEq, Repr

/-- Observable effects of a state-machine step: promise completions,
emitted events and requested socket transmissions. `reject slot none`
models `store.reject(undefined)`; `thrownTypeError` models the
`TypeError` thrown by `this.multipart[packet.sequence].length` on an
uninitialized slot, which rejects the async `recieve`'s promise. -/
inductive Output
  | resolveLogin
  | resolveData (slot : Int) (command : Option Bytes) (data : Option Bytes)
  | reject (slot : Int) (err : Option BEErr)
  | rejectAll (err : BEErr)
  | emitConnected
  | emitDisconnected (reason : BEErr)
  | emitCommand (data : Bytes) (resolved : Bool)
  | emitMessage (msg : Option Bytes)
  | sendAck (seq : Int)
  | retransmit (seq : Int)
  | scheduleReconnect
  | thrownTypeError
deriving DecidableEq, Repr

/-- The `IConnectionOptions` defaults of the `Connection` constructor. -/
structure Options where
  reconnect : Bool := true
  reconnectTimeout : Nat := 500
  keepAliveInterval : Nat := 15000
  timeoutInterval : Nat := 1000
  serverTimeout : Nat := 30000
  packetTimeout : Nat := 1000
  packetTimeoutThresholded : Nat := 5
deriving Repr

/-- Mutable protocol state of a `Connection`. `multipart i = none` is the
`undefined` of a slot the constructor's `for (let i = 0; i < 255; i++)`
loop never initialized (index 255, or any index outside the array). -/
structure Connection where
  connected : Bool
  seqCounter : Int
  packets : Int → Option Pending
  multipart : Int → Option (List (Option Packet))
  lastPacket : Option Packet

/-- Pointwise update of an `Int`-indexed table. -/
def upd {α : Type} (f : Int → α) (i : Int) (x : α) : Int → α :=
  fun j => if j = i then x else f j

/-- The reassembly array as the constructor and `cleanup` leave it:
`new Array(255)` with indices 0..254 set to `[]`, slot 255 (and every
index outside the array) an uninitialized `undefined`. -/
def initMultipart : Int → Option (List (Option Packet)) :=
  fun i => if 0 ≤ i ∧ i < 255 then some [] else none

namespace Connection

/-- The state established by the constructor: not connected, sequence
counter `-1`, no pending requests, reassembly slots 0..254 initialized to
empty arrays (slot 255 left uninitialized). -/
def init : Connection :=
  ⟨false, -1, fun _ => none, initMultipart, none⟩

/-- `Connection.store(store)`: register a pending request. Login requests
go to slot 0, Command requests to the slot of their sequence; a `Message`
packet is refused with `UnknownPacketType`. The `throw` of the source
leaves the table untouched, so the error case carries no state. -/
def store (c : Connection) (e : Pending) : Except BEErr Connection :=
  match e.packet.type with
  | .login =>
    if (c.packets 0).isSome then .error .packetOverflow
    else .ok { c with packets := upd c.packets 0 (some e) }
  | .command =>
    if (c.packets e.packet.sequence).isSome then .error .packetOverflow
    else .ok { c with packets := upd c.packets e.packet.sequence (some e) }
  | .message => .error (.unknownPacketType 2)

/-- `Connection.cleanup(error)`: reject every pending request, reset the
counters and both tables (the reassembly array again with only slots
0..254 initialized). The source keeps `info.lastPacket`. -/
def cleanup (c : Connection) (reason : BEErr) : Connection × List Output :=
  (⟨false, -1, fun _ => none, initMultipart, c.lastPacket⟩, [.rejectAll reason])

/-- `Connection.disconnect(reason)`: cleanup, emit `disconnected`, and
schedule a reconnect iff the option is on and the reason is
`ServerTimeout`. -/
def disconnect (opts : Options) (c : Connection) (reason : BEErr) : Connection × List Output :=
  let r := cleanup c reason
  (r.1, r.2 ++ [.emitDisconnected reason] ++
    (if opts.reconnect ∧ reason = .serverTimeout then [.scheduleReconnect] else []))

/-- The literal string `"Unknown command"` as UTF-8 bytes. -/
def unknownCommandBytes : Bytes :=
  [85, 110, 107, 110, 111, 119, 110, 32, 99, 111, 109, 109, 97, 110, 100]

/-- `Connection.resolve(packet)`: settle the pending request a reply packet
addresses and emit the matching events. Mirrors the source branch by
branch; in the Command branch the source rejects with
`store.packet.get('error')` — the `error` attribute of the *sent* request,
not of the reply that carries the error — which is modelled verbatim. -/
def resolve (opts : Options) (c : Connection) (p : Packet) : Connection × List Output :=
  match p.type with
  | .login =>
    let slot := c.packets 0
    let conn : Bool := p.attrs.login = some true
    let c1 : Connection := { c with connected := conn }
    let settled : Connection × List Output :=
      match slot with
      | some _ =>
        if conn then ({ c1 with packets := upd c1.packets 0 none }, [.resolveLogin])
        else ({ c1 with packets := upd c1.packets 0 none }, [.reject 0 (some .invalidPassword)])
      | none => (c1, [])
    if conn then (settled.1, settled.2 ++ [.emitConnected])
    else
      let d := disconnect opts settled.1 .invalidPassword
      (d.1, settled.2 ++ d.2)
  | .command =>
    let settled : Connection × List Output × Bool :=
      match c.packets p.sequence with
      | some s =>
        let out :=
          if p.attrs.error.isSome then Output.reject p.sequence s.packet.attrs.error
          else if p.attrs.data = some unknownCommandBytes then
            Output.reject p.sequence (some (.unknownCommand s.packet.attrs.command))
          else Output.resolveData p.sequence s.packet.attrs.command p.attrs.data
        ({ c with packets := upd c.packets p.sequence none }, [out], true)
      | none => (c, [], false)
    let emits : List Output :=
      match p.attrs.data with
      | some d => if d ≠ [] then [.emitCommand d settled.2.2] else []
      | none => []
    (settled.1, settled.2.1 ++ emits)
  | .message =>
    (c, [.emitMessage p.attrs.message, .sendAck p.sequence])

/-- The `valid`-flag loop of `Connection.recieve`: concatenate the `part`
bytes of every reassembly slot in slot order, or `none` if a slot is
still empty. -/
def allParts : List (Option Packet) → Option Bytes
  | [] => some []
  | none :: _ => none
  | some q :: rest => (allParts rest).map (fun r => q.attrs.part.getD [] ++ r)

/-- `Connection.recieve(packet)`: the receive entry point. Split packets
feed reassembly; the fragment with `index + 1 == total` triggers the
completeness check, which either synthesizes a Command Reply from the
concatenated parts, or retransmits the pending request (when its `sent`
count is at least 5), or fails it with `MaxRetries`. Non-split packets go
straight to `resolve`. The synthetic packets copy the optional `sequence`
attribute of the trigger (the source passes the getter value, `-1` when
absent — a case no decoded split packet exhibits). The first statement of
the split branch reads `this.multipart[packet.sequence].length`: on an
uninitialized slot (sequence 255, or a missing sequence attribute) this
throws `TypeError` — after `info.lastPacket` was already set — so nothing
is stored or resolved and the async method's promise rejects
(`thrownTypeError`). -/
def recieve (opts : Options) (c0 : Connection) (p : Packet) : Connection × List Output :=
  let c : Connection := { c0 with lastPacket := some p }
  if p.direction = .split then
    let s := p.sequence
    match c.multipart s with
    | none => (c, [.thrownTypeError])
    | some mp0 =>
      let mp1 : List (Option Packet) :=
        if mp0.length = 0 then List.replicate (p.attrs.total.getD 0) none else mp0
      let mp2 := jsSet mp1 (p.attrs.index.getD 0) p
      let c1 : Connection := { c with multipart := upd c.multipart s (some mp2) }
      if p.attrs.index.getD 0 + 1 = p.attrs.total.getD 0 then
        match allParts mp2 with
        | some buff =>
          let c2 : Connection := { c1 with multipart := upd c1.multipart s (some []) }
          resolve opts c2 ⟨.command, .reply, { data := some buff, sequence := p.attrs.sequence }⟩
        | none =>
          match c1.packets s with
          | some resend =>
            if resend.packet.sent ≥ 5 then
              let bumped : Option Pending := some { resend with packet := resend.packet.serializeBump }
              ({ c1 with packets := upd c1.packets s bumped }, [.retransmit s])
            else
              resolve opts c1 ⟨.command, .reply, { error := some .maxRetries, sequence := p.attrs.sequence }⟩
          | none => (c1, [])
      else (c1, [])
  else
    resolve opts c p

/-- Deliver a list of packets to `recieve` one after the other, threading
the state and concatenating the outputs (one inbound datagram at a time,
as the single-threaded engine processes them). -/
def deliverAll (opts : Options) : Connection → List Packet → Connection × List Output
  | c, [] => (c, [])
  | c, p :: rest =>
    let r1 := recieve opts c p
    let r2 := deliverAll opts r1.1 rest
    (r2.1, r1.2 ++ r2.2)

/-- The per-pending check of the timeout scheduler in `Connection.setup`:
retransmit when the retry interval has elapsed (the `sent` counter bumps as
the serialize side effect), otherwise synthesize a `ServerTimeout`-carrying
reply for a pending past the threshold and hand it to `resolve`. -/
def tickPending (opts : Options) (time : Nat) (c : Connection) (i : Int) :
    Connection × List Output :=
  match c.packets i with
  | none => (c, [])
  | some pdg =>
    if pdg.packet.attrs.timestamp ≠ 0 ∧
        (time : Int) - pdg.packet.attrs.timestamp ≥ pdg.packet.sent * opts.packetTimeout then
      ({ c with packets := upd c.packets i (some { pdg with packet := pdg.packet.serializeBump }) },
        [.retransmit i])
    else if pdg.packet.sent ≥ opts.packetTimeoutThresholded then
      resolve opts c ⟨pdg.packet.type, .reply,
        { error := some .serverTimeout, sequence := pdg.packet.attrs.sequence }⟩
    else (c, [])

/-- Fold `tickPending` over a list of slots, threading the state and
concatenating the outputs (the `for (const p of this.packets)` loop). -/
def tickLoop (opts : Options) (time : Nat) : Connection → List Int → Connection × List Output
  | c, [] => (c, [])
  | c, i :: rest =>
    let r1 := tickPending opts time c i
    let r2 := tickLoop opts time r1.1 rest
    (r2.1, r1.2 ++ r2.2)

/-- One tick of the timeout scheduler: the server-liveness check first
(disconnecting with `ServerTimeout` and returning early), then the
per-pending retry loop over the array slots 0..255. -/
def tick (opts : Options) (time : Nat) (c : Connection) : Connection × List Output :=
  let livenessHit : Bool :=
    match c.lastPacket with
    | some lp =>
      decide (lp.attrs.timestamp ≠ 0 ∧ (time : Int) - lp.attrs.timestamp ≥ opts.serverTimeout)
    | none => false
  if livenessHit then disconnect opts c .serverTimeout
  else tickLoop opts time c ((List.range 256).map (Int.ofNat ·))

/-- The `sequence` getter: reset the counter to `-1` once it reaches 255,
then advance and return it. -/
def sequenceRead (c : Connection) : Int × Connection :=
  let cur := if c.seqCounter ≥ 255 then -1 else c.seqCounter
  (cur + 1, { c with seqCounter := cur + 1 })

end Connection

/-- A packet the socket can hand to `Connection.recieve`: the successful
decoding of some datagram. -/
def Inbound (p : Packet) : Prop := ∃ buf, Packet.FROM buf = .ok p

/-- The externally triggered operations of a `Connection`, for stating
state-machine invariants. -/
inductive Action
  | recv (p : Packet)
  | tickAt (time : Nat)
  | storeEntry (e : Pending)
  | disconnectBy (reason : BEErr)
  | seqRead
deriving Repr

/-- One step of the `Connection` state machine: a decoded datagram handed
to `recieve`, a timeout-scheduler tick, a pending-request registration
(whose `throw` on overflow leaves the state unchanged), a disconnect
(`disconnect()` itself or `kill(reason)`), or a `sequence` read. -/
inductive Step (opts : Options) : Connection → Action → Connection → List Output → Prop
  | recv (c : Connection) (p : Packet) (st : Connection) (out : List Output) :
      Inbound p → Connection.recieve opts c p = (st, out) → Step opts c (.recv p) st out
  | tickAt (c : Connection) (t : Nat) (st : Connection) (out : List Output) :
      Connection.tick opts t c = (st, out) → Step opts c (.tickAt t) st out
  | storeOk (c : Connection) (e : Pending) (st : Connection) :
      Connection.store c e = .ok st → Step opts c (.storeEntry e) st []
  | storeErr (c : Connection) (e : Pending) (err : BEErr) :
      Connection.store c e = .error err → Step opts c (.storeEntry e) c []
  | disconnectBy (c : Connection) (r : BEErr) (st : Connection) (out : List Output) :
      Connection.disconnect opts c r = (st, out) → Step opts c (.disconnectBy r) st out
  | seqRead (c : Connection) :
      Step opts c .seqRead (Connection.sequenceRead c).2 []

/-! ## Statement-side helpers and concrete fixtures -/

/-- The packet shape `Packet.FROM` produces for a multipart Command
fragment: sequence `s`, group size `total`, slot `i`, payload `part`. -/
def mkFrag (s total i : Nat) (part : Bytes) : Packet :=
  ⟨.command, .split,
    { sequence := some s, total := some total, index := some i, part := some part }⟩

/-- The reassembly slot for sequence `s` after the fragments listed in
`done` (each `< total`) have been stored: still the initial empty array
when nothing arrived, else an array of `total` slots holding exactly the
arrived fragments at their indices. -/
def reassemblyTable (s total : Nat) (parts : Nat → Bytes) (done : List Nat)
    (mp : List (Option Packet)) : Prop :=
  (done = [] ∧ mp = []) ∨
  (mp.length = total ∧ ∀ i, i < total →
     mp.getD i none = if i ∈ done then some (mkFrag s total i (parts i)) else none)

/-- The values of `n` successive reads of the `sequence` getter. -/
def seqReads : Nat → Connection → List Int
  | 0, _ => []
  | n + 1, c =>
    let r := Connection.sequenceRead c
    r.1 :: seqReads n r.2

/-- Classifier: the decode result is a `PacketError`. -/
def isPacketError : Except DecodeErr Packet → Bool
  | .error (.packetError _) => true
  | _ => false

/-- Classifier: the decode result is an `UnknownPacketType`. -/
def isUnknownType : Except DecodeErr Packet → Bool
  | .error (.unknownPacketType _) => true
  | _ => false

/-- Classifier: the decode result is Node's out-of-range error. -/
def isRangeError : Except DecodeErr Packet → Bool
  | .error .rangeError => true
  | _ => false

/-- Classifier: the decode result is a packet. -/
def isOkPacket : Except DecodeErr Packet → Bool
  | .ok _ => true
  | _ => false

/-- The error of a `store` result, if any. -/
def storeErrOf : Except BEErr Connection → Option BEErr
  | .error e => some e
  | .ok _ => none

/-- The four `PacketError` conditions of `Packet.FROM`: too short, bad
header text, checksum mismatch, missing `0xFF` flag. -/
def fromPacketErrCond (buf : Bytes) : Prop :=
  buf.length < 9 ∨ ¬(buf.getD 0 0 = 0x42 ∧ buf.getD 1 0 = 0x45) ∨
    readInt32BE buf 2 ≠ readInt32LE (crc32 (buf.drop 6)) 0 ∨ (buf.drop 6).getD 0 0 ≠ 0xFF

instance (buf : Bytes) : Decidable (fromPacketErrCond buf) := by
  unfold fromPacketErrCond; infer_instance

namespace Fixtures

/-- Default connection options. -/
def opts : Options := {}

/-- Fragment 0 of 2 at sequence 3, payload `h`. -/
def fragA : Packet := mkFrag 3 2 0 [104]

/-- Fragment 1 of 2 at sequence 3, payload `w`. -/
def fragB : Packet := mkFrag 3 2 1 [119]

/-- A pending Command request at sequence 3 with 5 transmissions. -/
def pdgCmd : Pending :=
  ⟨10, ⟨.command, .request, { command := some [112], sequence := some 3, sent := 5, timestamp := 1 }⟩⟩

/-- A connection with `pdgCmd` pending at slot 3. -/
def cMulti : Connection := { Connection.init with packets := upd (fun _ => none) 3 (some pdgCmd) }

/-- A pending keep-alive Command at sequence 1, 5 transmissions, sent at
time 1000. -/
def pdgTick : Pending :=
  ⟨10, ⟨.command, .request, { command := some [], sequence := some 1, sent := 5, timestamp := 1000 }⟩⟩

/-- A connected connection with `pdgTick` pending at slot 1. -/
def cTick : Connection :=
  { Connection.init with connected := true, packets := upd (fun _ => none) 1 (some pdgTick) }

/-- A pending Login request. -/
def pdgLogin : Pending := ⟨9, ⟨.login, .request, { password := some [1] }⟩⟩

/-- A connection with a Login request pending (slot 0). -/
def cLogin : Connection := { Connection.init with packets := upd (fun _ => none) 0 (some pdgLogin) }

/-- A pending Command request at sequence `n`. -/
def cmdSeq (n : Nat) : Pending :=
  ⟨11, ⟨.command, .request, { command := some [97], sequence := some n }⟩⟩

/-- The wire encoding of a Login Reply with `login = true`. -/
def loginTrueBuf : Bytes := [66, 69, 54, 222, 221, 105, 255, 0, 1]

/-- The decoding of `loginTrueBuf`. -/
def loginTruePkt : Packet := ⟨.login, .reply, { login := some true }⟩

/-- The wire encoding of a Message packet at sequence 7 with empty text. -/
def ackBuf : Bytes := [66, 69, 237, 139, 26, 222, 255, 2, 7]

/-- The decoding of `ackBuf`. -/
def ackPkt : Packet := ⟨.message, .reply, { sequence := some 7, message := some [] }⟩

/-- An 11-byte buffer with a valid header and checksum whose type byte is
Command and whose payload is exactly `FF 01 00 00 00`: the multipart
marker with no index byte. -/
def rangeBuf : Bytes := [66, 69, 180, 250, 87, 244, 255, 1, 0, 0, 0]

/-- A Command Request at sequence 0 with command `a`. -/
def cmdA : Packet := ⟨.command, .request, { sequence := some 0, command := some [97] }⟩

/-- The serialization of `cmdA`. -/
def cmdABuf : Bytes := [66, 69, 196, 54, 226, 20, 255, 1, 0, 97]

/-- A Login Request with the empty password. -/
def loginEmpty : Packet := ⟨.login, .request, { password := some [] }⟩

/-- The 8-byte serialization of `loginEmpty`. -/
def loginEmptyBuf : Bytes := [66, 69, 210, 253, 239, 141, 255, 0]

/-- Fragment payloads for the reassembly witness: part 0 is `h`, part 1
is `w`. -/
def partsWit : Nat → Bytes := fun i => if i = 0 then [104] else [119]

end Fixtures

/-! ## Theorems -/

/-- Claim C10: serializing a Login Request with the empty password succeeds
and yields an 8-byte buffer (6-byte header plus 2-byte payload), which the
decoder rejects with `PacketError` for being below the 9-byte minimum: a
sendable packet whose encoding cannot be decoded. -/
theorem login_empty_roundtrip :
    Packet.serialize Fixtures.loginEmpty = .ok Fixtures.loginEmptyBuf ∧
    Fixtures.loginEmptyBuf.length = 8 ∧
    Packet.FROM Fixtures.loginEmptyBuf =
      .error (.packetError "Packet must contain at least 9 bytes") := by
  decide

/-- Claim C1, counterexample: the Command Request `cmdA` (sequence 0,
command `a`) serializes to `cmdABuf`, but decoding that buffer yields a
packet of direction Reply, not the Request direction of `cmdA` — so
decode ∘ encode does not preserve the direction, refuting the round-trip
claim as stated. -/
theorem roundtrip_direction_cex :
    Packet.serialize Fixtures.cmdA = .ok Fixtures.cmdABuf ∧
    Packet.FROM Fixtures.cmdABuf =
      .ok ⟨.command, .reply, { sequence := some 0, data := some [97] }⟩ ∧
    Fixtures.cmdA.direction = .request ∧ PacketDirection.reply ≠ PacketDirection.request := by
  decide

/-- Claim C8, counterexample: an 11-byte buffer with valid header,
checksum and flag, type byte Command (a value in {0,1,2}), on which the
decoder neither fails with `PacketError`/`UnknownPacketType` nor succeeds:
the payload is exactly 5 bytes with the multipart marker, so
`payload.readUInt8(5)` raises Node's out-of-range error. This refutes
"succeeds returning a packet in exactly the remaining cases". -/
theorem from_range_cex :
    Packet.FROM Fixtures.rangeBuf = .error .rangeError ∧
    ¬fromPacketErrCond Fixtures.rangeBuf ∧
    (Fixtures.rangeBuf.drop 6).getD 1 0 = 1 ∧
    isOkPacket (Packet.FROM Fixtures.rangeBuf) = false := by
  decide

/-- Claim C2, counterexample: both fragments of a 2-fragment group at
sequence 3 are delivered, but in the order index 1 then index 0. No
synthetic Command Reply is ever produced (the only output is the
retransmission requested by the recovery path) and the pending request at
sequence 3 is still unresolved, refuting "delivered ... in any arrival
order, once all `total` fragments have arrived a synthetic Command Reply
is produced ... and the pending request at sequence s is resolved". -/
theorem multipart_order_cex :
    (Connection.deliverAll Fixtures.opts Fixtures.cMulti [Fixtures.fragB, Fixtures.fragA]).2 =
      [Output.retransmit 3] ∧
    ((Connection.deliverAll Fixtures.opts Fixtures.cMulti
      [Fixtures.fragB, Fixtures.fragA]).1.packets 3).isSome = true := by
  decide

/-- Claim C3: evaluation of the timeout tick at the failing input. The
connection `cTick` is connected and holds a pending Command at sequence 1
with `sent = 5` (the threshold) and a fresh timestamp, so the retransmit
branch does not fire. The tick completes that pending request — and only
it — without tearing the connection down, but it rejects the promise with
`undefined` (`reject 1 none`): the code reads the `error` attribute off
the stored request packet instead of the synthetic `ServerTimeout` reply
it just built. The last two conjuncts show the retransmit branch at a
later time: the packet is re-sent and the pending entry stays in place. -/
theorem tick_threshold_reject_undefined :
    (Connection.tickPending Fixtures.opts 1000 Fixtures.cTick 1).2 = [Output.reject 1 none] ∧
    (Connection.tickPending Fixtures.opts 1000 Fixtures.cTick 1).1.packets 1 = none ∧
    (Connection.tickPending Fixtures.opts 1000 Fixtures.cTick 1).1.connected = true ∧
    (Connection.tick Fixtures.opts 1000 Fixtures.cTick).2 = [Output.reject 1 none] ∧
    (Connection.tickPending Fixtures.opts 6001 Fixtures.cTick 1).2 = [Output.retransmit 1] ∧
    ((Connection.tickPending Fixtures.opts 6001 Fixtures.cTick 1).1.packets 1).isSome = true := by
  decide

/-- Claim C6, counterexample: while a Login request is pending (slot 0
occupied), registering a Command pending entry with sequence 0 raises
`PacketOverflow` — the Login entry does not occupy a slot distinct from
the Command sequence slots. -/
theorem login_slot_cex :
    Fixtures.cLogin.packets 0 = some Fixtures.pdgLogin ∧
    Fixtures.pdgLogin.packet.type = PacketType.login ∧
    (Fixtures.cmdSeq 0).packet.type = PacketType.command ∧
    (Fixtures.cmdSeq 0).packet.attrs.sequence = some 0 ∧
    storeErrOf (Connection.store Fixtures.cLogin (Fixtures.cmdSeq 0)) = some .packetOverflow := by
  decide

/-- Claim C4: on a fresh Connection, 256 successive reads of the
`sequence` getter yield 0..255 in order and the 257th read yields 0; and
every read returns (previous + 1) mod 256 (the previous read value being
the stored counter). -/
theorem sequence_wrap :
    seqReads 257 Connection.init = (List.range 256).map (Int.ofNat ·) ++ [0] ∧
    ∀ (c : Connection) (v : Nat), c.seqCounter = (v : Int) → v ≤ 255 →
      (Connection.sequenceRead c).1 = (((v + 1) % 256 : Nat) : Int) := by
  constructor
  · decide
  · intro c v hc hv
    simp only [Connection.sequenceRead, hc]
    split <;> omega

/-- Witness for `sequence_wrap`: a read at counter 255 wraps to 0. -/
theorem sequence_wrap_witness :
    (Connection.sequenceRead { Connection.init with seqCounter := (255 : Int) }).1 =
      (((255 + 1) % 256 : Nat) : Int) :=
  sequence_wrap.2 _ 255 rfl (by norm_num)

/-- Registering a Command pending entry whose sequence slot is already
occupied raises `PacketOverflow`; the `throw` happens before any
assignment, so no state is produced and the existing entry survives. -/
theorem store_occupied_overflow (c : Connection) (e : Pending) (n : Nat)
    (htype : e.packet.type = .command) (hseq : e.packet.attrs.sequence = some n)
    (hocc : (c.packets (n : Int)).isSome = true) :
    Connection.store c e = .error .packetOverflow := by
  have hs : e.packet.sequence = (n : Int) := by
    simp [Packet.sequence, hseq]
  simp only [Connection.store, htype, hs, hocc, if_true]

/-- Claim C5: in every Connection state with a pending entry at sequence
`n`, storing a second Command pending entry at `n` raises `PacketOverflow`
and registers nothing — the `throw` precedes the table assignment, so the
error result carries no new state and the first entry remains in `c`. -/
theorem store_second_command_overflow (c : Connection) (e : Pending) (n : Nat)
    (htype : e.packet.type = .command) (hseq : e.packet.attrs.sequence = some n)
    (hocc : (c.packets (n : Int)).isSome = true) :
    Connection.store c e = .error .packetOverflow :=
  store_occupied_overflow c e n htype hseq hocc

/-- Witness for `store_second_command_overflow`: with a Command pending at
sequence 3, a second Command at sequence 3 overflows. -/
theorem store_second_command_overflow_witness :
    Connection.store
      { Connection.init with packets := upd (fun _ => none) 3 (some Fixtures.pdgCmd) }
      (Fixtures.cmdSeq 3) = .error .packetOverflow :=
  store_second_command_overflow _ _ 3 (by decide) (by decide) (by decide)

/-- Claim C6, amended: the in-flight Login entry occupies slot 0 of the
same array as the Command sequence slots. While a Login request is
pending, a Command with sequence 0 raises `PacketOverflow`; a Command
with any free sequence `n ≥ 1` registers successfully and leaves slot 0
(the Login entry) untouched; and resolving a Command reply at sequence
`n ≥ 1` never removes or completes the slot-0 entry. -/
theorem login_slot_shared_amended :
    (∀ (c : Connection) (e : Pending), (c.packets 0).isSome = true →
       e.packet.type = .command → e.packet.attrs.sequence = some 0 →
       Connection.store c e = .error .packetOverflow) ∧
    (∀ (c : Connection) (e : Pending) (n : Nat), 1 ≤ n →
       e.packet.type = .command → e.packet.attrs.sequence = some n →
       c.packets (n : Int) = none →
       ∃ st, Connection.store c e = .ok st ∧ st.packets 0 = c.packets 0 ∧
         st.packets (n : Int) = some e) ∧
    (∀ (opts : Options) (c : Connection) (p : Packet) (n : Nat), 1 ≤ n → p.type = .command →
       p.attrs.sequence = some n →
       (Connection.resolve opts c p).1.packets 0 = c.packets 0) := by
  refine ⟨?_, ?_, ?_⟩
  · intro c e hocc htype hseq
    exact store_occupied_overflow c e 0 htype hseq (by simpa using hocc)
  · intro c e n hn htype hseq hfree
    have hs : e.packet.sequence = (n : Int) := by simp [Packet.sequence, hseq]
    refine ⟨{ c with packets := upd c.packets (n : Int) (some e) }, ?_, ?_, ?_⟩
    · simp only [Connection.store, htype, hs, hfree, Option.isSome_none, Bool.false_eq_true,
        if_false]
    · simp only [upd]
      rw [if_neg]
      omega
    · simp [upd]
  · intro opts c p n hn htype hseq
    have hs : p.sequence = (n : Int) := by simp [Packet.sequence, hseq]
    simp only [Connection.resolve, htype, hs]
    cases hmatch : c.packets (n : Int) <;>
      simp [upd, hmatch]
    · omega

/-- Witness for `login_slot_shared_amended`: while the Login of `cLogin`
is pending, a Command at sequence 1 registers and leaves slot 0 intact. -/
theorem login_slot_shared_witness :
    ∃ st, Connection.store Fixtures.cLogin (Fixtures.cmdSeq 1) = .ok st ∧
      st.packets 0 = Fixtures.cLogin.packets 0 ∧ st.packets (1 : Int) = some (Fixtures.cmdSeq 1) :=
  login_slot_shared_amended.2.1 Fixtures.cLogin (Fixtures.cmdSeq 1) 1 (by norm_num)
    (by decide) (by decide) (by decide)

/-! ### Encode/decode lemmas -/

theorem natFromLE4_bytesLE4 (n : Nat) (h : n < 4294967296) : natFromLE4 (bytesLE4 n) 0 = n := by
  simp only [natFromLE4, bytesLE4, List.getD_cons_zero, List.getD_cons_succ]
  omega

/-- Reading the CRC buffer back as a little-endian word recovers the CRC. -/
theorem readInt32LE_crc32 (payload : Bytes) :
    readInt32LE (crc32 payload) 0 = toSigned32 (crc32Nat payload) := by
  unfold readInt32LE crc32
  rw [natFromLE4_bytesLE4 _ (crc32Nat_lt payload)]

theorem int32ToBytesBE_toSigned32 (n : Nat) (h : n < 4294967296) :
    int32ToBytesBE (toSigned32 n) = bytesBE4 n := by
  unfold int32ToBytesBE toSigned32
  congr 1
  split <;> omega

/-- The `writeInt32BE(readInt32LE(crc32), 2)` dance of `serialize` places
exactly the big-endian bytes of the CRC word into the header. -/
theorem mkHeader_eq (payload : Bytes) :
    Packet.mkHeader payload = 0x42 :: 0x45 :: bytesBE4 (crc32Nat payload) := by
  unfold Packet.mkHeader
  rw [readInt32LE_crc32, int32ToBytesBE_toSigned32 _ (crc32Nat_lt payload)]

/-- Decoding a buffer built by `serialize` passes the length, header and
checksum checks and reduces to `decodeBody` on the payload. -/
theorem FROM_wire (payload : Bytes) (h : 3 ≤ payload.length) :
    Packet.FROM (Packet.mkHeader payload ++ payload) = Packet.decodeBody payload := by
  rw [mkHeader_eq]
  have hlt := crc32Nat_lt payload
  rw [show (0x42 :: 0x45 :: bytesBE4 (crc32Nat payload) ++ payload) =
      0x42 :: 0x45 :: (crc32Nat payload / 16777216 % 256) :: (crc32Nat payload / 65536 % 256) ::
        (crc32Nat payload / 256 % 256) :: (crc32Nat payload % 256) :: payload from by
        simp [bytesBE4]]
  rw [Packet.FROM]
  simp only [List.length_cons, List.getD_cons_succ, List.getD_cons_zero, List.drop_succ_cons,
    List.drop_zero]
  rw [if_neg (by omega)]
  rw [if_neg (by decide)]
  have hcks : readInt32BE (0x42 :: 0x45 :: (crc32Nat payload / 16777216 % 256) ::
      (crc32Nat payload / 65536 % 256) :: (crc32Nat payload / 256 % 256) ::
      (crc32Nat payload % 256) :: payload) 2 = toSigned32 (crc32Nat payload) := by
    unfold readInt32BE natFromBE4
    simp only [List.getD_cons_succ, List.getD_cons_zero]
    congr 1
    omega
  rw [hcks, readInt32LE_crc32]
  rw [if_neg (by simp)]

/-- Claim C1, amended: for each sendable packet kind, decoding the
serialized buffer recovers the packet up to the systematic changes decode
applies — the direction of a decoded packet is always Reply (never the
Request direction of the sent packet), a Login Request decodes to a Login
Reply whose `login` flag is the test `first password byte == 1` (the
password itself is not recovered), and a Command Request whose command is
at least 2 bytes long and starts with `0x00` would decode as a Split
fragment, so it is excluded. Within those bounds: a Command Request's
sequence and command bytes (as `data`) and a Message ack's sequence
round-trip exactly. -/
theorem encode_decode_amended :
    (∀ pw : Bytes, pw ≠ [] →
       Packet.serialize ⟨.login, .request, { password := some pw }⟩ =
         .ok (Packet.mkHeader (0xFF :: 0 :: pw) ++ (0xFF :: 0 :: pw)) ∧
       Packet.FROM (Packet.mkHeader (0xFF :: 0 :: pw) ++ (0xFF :: 0 :: pw)) =
         .ok ⟨.login, .reply, { login := some (pw.getD 0 0 = 1) }⟩) ∧
    (∀ (s : Nat) (cmd : Bytes), s ≤ 255 → ¬(2 ≤ cmd.length ∧ cmd.getD 0 0 = 0) →
       Packet.serialize ⟨.command, .request, { sequence := some s, command := some cmd }⟩ =
         .ok (Packet.mkHeader (0xFF :: 1 :: s :: cmd) ++ (0xFF :: 1 :: s :: cmd)) ∧
       Packet.FROM (Packet.mkHeader (0xFF :: 1 :: s :: cmd) ++ (0xFF :: 1 :: s :: cmd)) =
         .ok ⟨.command, .reply, { sequence := some s, data := some cmd }⟩) ∧
    (∀ s : Nat, s ≤ 255 →
       Packet.serialize ⟨.message, .reply, { sequence := some s }⟩ =
         .ok (Packet.mkHeader [0xFF, 2, s] ++ [0xFF, 2, s]) ∧
       Packet.FROM (Packet.mkHeader [0xFF, 2, s] ++ [0xFF, 2, s]) =
         .ok ⟨.message, .reply, { sequence := some s, message := some [] }⟩) := by
  refine ⟨?_, ?_, ?_⟩
  · intro pw hpw
    constructor
    · rfl
    · rw [FROM_wire _ (by cases pw with
        | nil => exact absurd rfl hpw
        | cons a l => simp)]
      simp [Packet.decodeBody]
  · intro s cmd hs hcmd
    have hco : ¬(cmd.length + 1 + 1 + 1 > 4 ∧ cmd.getD 0 0 = 0) := by
      intro hx
      exact hcmd ⟨by omega, hx.2⟩
    constructor
    · simp [Packet.serialize, hs]
    · rw [FROM_wire _ (by simp)]
      simp [Packet.decodeBody, hco]
      intro h1 h2
      exact absurd ⟨by omega, by simpa [List.getD_eq_getElem?_getD] using h2⟩ hcmd
  · intro s hs
    constructor
    · simp [Packet.serialize, hs]
    · rw [FROM_wire _ (by simp)]
      simp [Packet.decodeBody]

/-- Witness for `encode_decode_amended`: the three parts at password `[1]`,
command `a` with sequence 0, and ack sequence 7. -/
theorem encode_decode_amended_witness :
    Packet.FROM (Packet.mkHeader (0xFF :: 0 :: [1]) ++ (0xFF :: 0 :: [1])) =
      .ok ⟨.login, .reply, { login := some true }⟩ ∧
    Packet.FROM (Packet.mkHeader (0xFF :: 1 :: 0 :: [97]) ++ (0xFF :: 1 :: 0 :: [97])) =
      .ok ⟨.command, .reply, { sequence := some 0, data := some [97] }⟩ ∧
    Packet.FROM (Packet.mkHeader [0xFF, 2, 7] ++ [0xFF, 2, 7]) =
      .ok ⟨.message, .reply, { sequence := some 7, message := some [] }⟩ := by
  refine ⟨?_, ?_, ?_⟩
  · simpa using (encode_decode_amended.1 [1] (by decide)).2
  · simpa using (encode_decode_amended.2.1 0 [97] (by decide) (by decide)).2
  · simpa using (encode_decode_amended.2.2 7 (by decide)).2

/-- Claim C9: every packet the decoder accepts has direction Reply or
Split, never Request; and it is Split exactly for a Command payload longer
than 4 bytes whose byte 3 is `0x00`. -/
theorem decode_direction (buf : Bytes) (p : Packet) (h : Packet.FROM buf = .ok p) :
    (p.direction = .reply ∨ p.direction = .split) ∧
    (p.direction = .split ↔
      p.type = .command ∧ (buf.drop 6).length > 4 ∧ (buf.drop 6).getD 3 0 = 0) := by
  rw [Packet.FROM] at h
  split at h
  · exact absurd h (by simp)
  · split at h
    · exact absurd h (by simp)
    · dsimp only at h
      split at h
      · exact absurd h (by simp)
      · rw [Packet.decodeBody] at h
        dsimp only at h
        split at h
        · exact absurd h (by simp)
        · split at h
          · cases h
            simp
          · split at h
            · split at h
              · split at h
                · cases h
                  refine ⟨Or.inr rfl, ?_⟩
                  simp_all
                · exact absurd h (by simp)
              · cases h
                refine ⟨Or.inl rfl, ?_⟩
                simp_all
            · split at h
              · cases h
                simp
              · exact absurd h (by simp)

/-- Witness for `decode_direction`: the Message buffer `ackBuf` decodes
successfully, with direction Reply. -/
theorem decode_direction_witness :
    (Fixtures.ackPkt.direction = .reply ∨ Fixtures.ackPkt.direction = .split) ∧
    (Fixtures.ackPkt.direction = .split ↔
      Fixtures.ackPkt.type = .command ∧ (Fixtures.ackBuf.drop 6).length > 4 ∧
        (Fixtures.ackBuf.drop 6).getD 3 0 = 0) :=
  decode_direction Fixtures.ackBuf Fixtures.ackPkt (by decide)

/-- Claim C8, amended: exact classification of `Packet.FROM` on every
buffer. `PacketError` exactly on the four conditions the claim lists
(short buffer, bad header text, checksum mismatch, missing `0xFF` flag);
`UnknownPacketType` exactly when those pass and the type byte is not 0, 1
or 2; additionally — the amendment — Node's out-of-range error when the
checks pass, the type is Command, and the payload is exactly 5 bytes with
the multipart marker (`payload[3] = 0`); and success in exactly the
remaining cases. -/
theorem from_characterization_amended (buf : Bytes) :
    (isPacketError (Packet.FROM buf) = true ↔ fromPacketErrCond buf) ∧
    (isUnknownType (Packet.FROM buf) = true ↔
      ¬fromPacketErrCond buf ∧
      ¬((buf.drop 6).getD 1 0 = 0 ∨ (buf.drop 6).getD 1 0 = 1 ∨ (buf.drop 6).getD 1 0 = 2)) ∧
    (isRangeError (Packet.FROM buf) = true ↔
      ¬fromPacketErrCond buf ∧ (buf.drop 6).getD 1 0 = 1 ∧
      (buf.drop 6).length = 5 ∧ (buf.drop 6).getD 3 0 = 0) ∧
    (isOkPacket (Packet.FROM buf) = true ↔
      ¬fromPacketErrCond buf ∧
      ((buf.drop 6).getD 1 0 = 0 ∨ (buf.drop 6).getD 1 0 = 1 ∨ (buf.drop 6).getD 1 0 = 2) ∧
      ¬((buf.drop 6).getD 1 0 = 1 ∧ (buf.drop 6).length = 5 ∧ (buf.drop 6).getD 3 0 = 0)) := by
  rw [Packet.FROM]
  dsimp only
  rw [Packet.decodeBody]
  dsimp only
  unfold fromPacketErrCond
  generalize (List.drop 6 buf).length = L
  generalize List.getD (List.drop 6 buf) 0 0 = a0
  generalize List.getD (List.drop 6 buf) 1 0 = a1
  generalize List.getD (List.drop 6 buf) 3 0 = a3
  generalize List.getD buf 0 0 = b0
  generalize List.getD buf 1 0 = b1
  generalize buf.length = BL
  generalize readInt32BE buf 2 = ck
  generalize readInt32LE (crc32 (List.drop 6 buf)) 0 = cr
  split_ifs <;>
    simp only [isPacketError, isUnknownType, isRangeError, isOkPacket] <;>
    simp <;>
    omega

/-! ### Connected-flag transition lemmas -/

/-- `resolve` changes the `connected` flag only in its Login branch, where
the flag becomes the truth of `login == some true` (an absent or false
`login` attribute leads through `disconnect`, which also clears it). -/
theorem resolve_connected (opts : Options) (c : Connection) (p : Packet) :
    (Connection.resolve opts c p).1.connected =
      (if p.type = .login then decide (p.attrs.login = some true) else c.connected) := by
  rcases p with ⟨ty, dir, attrs⟩
  cases ty
  · by_cases hconn : attrs.login = some true <;>
      cases hslot : c.packets 0 <;>
        simp [Connection.resolve, hslot, hconn, Connection.disconnect, Connection.cleanup]
  · cases hslot : c.packets (Packet.sequence ⟨.command, dir, attrs⟩) <;>
      simp [Connection.resolve, hslot]
  · simp [Connection.resolve]

/-- `recieve` changes the `connected` flag only for non-split Login
packets: the reassembly path only ever resolves synthetic Command
replies, which leave the flag alone. -/
theorem recieve_connected (opts : Options) (c : Connection) (p : Packet) :
    (Connection.recieve opts c p).1.connected =
      (if p.direction ≠ .split ∧ p.type = .login then decide (p.attrs.login = some true)
       else c.connected) := by
  by_cases hdir : p.direction = .split
  · simp only [Connection.recieve, hdir, if_pos, ne_eq, not_true_eq_false, false_and, if_false]
    repeat' split
    all_goals first
      | (rw [resolve_connected]; simp)
      | simp
  · simp only [Connection.recieve, hdir, ne_eq, not_false_eq_true, true_and, if_neg]
    try rw [resolve_connected]
    try rfl
    try simp


/-- A per-pending timeout check never raises the `connected` flag: its
synthetic packets carry no `login` attribute. -/
theorem tickPending_connected (opts : Options) (t : Nat) (c : Connection) (i : Int)
    (h : (Connection.tickPending opts t c i).1.connected = true) : c.connected = true := by
  rw [Connection.tickPending] at h
  split at h
  · exact h
  · split at h
    · exact h
    · split at h
      · rw [resolve_connected] at h
        split at h
        · simp at h
        · exact h
      · exact h

/-- The per-pending timeout loop never raises the `connected` flag. -/
theorem tickLoop_connected (opts : Options) (t : Nat) (l : List Int) (c : Connection)
    (h : (Connection.tickLoop opts t c l).1.connected = true) : c.connected = true := by
  induction l generalizing c with
  | nil => exact h
  | cons i rest ih =>
    rw [Connection.tickLoop] at h
    exact tickPending_connected opts t c i (ih _ h)

/-- A timeout tick never raises the `connected` flag (the liveness branch
disconnects, the retry loop cannot raise it). -/
theorem tick_connected (opts : Options) (t : Nat) (c : Connection)
    (h : (Connection.tick opts t c).1.connected = true) : c.connected = true := by
  rw [Connection.tick] at h
  split at h
  · simp [Connection.disconnect, Connection.cleanup] at h
  · exact tickLoop_connected opts t _ c h

/-- Registering a pending request never touches the `connected` flag. -/
theorem store_connected (c : Connection) (e : Pending) (st : Connection)
    (h : Connection.store c e = .ok st) : st.connected = c.connected := by
  rw [Connection.store] at h
  split at h
  · split at h
    · exact absurd h (by simp)
    · cases h
      rfl
  · split at h
    · exact absurd h (by simp)
    · cases h
      rfl
  · exact absurd h (by simp)


/-- Claim C7: across every step of the Connection state machine, the
`connected` flag rises false-to-true only when an inbound (decoded) Login
packet with `login = true` is processed by the receive entry point, and
falls true-to-false only on a disconnect (explicit `disconnect()` /
`kill`, which the code invokes with `ServerDisconnect`, `ServerTimeout`
or `InvalidPassword`), on an inbound Login packet with `login` not true
(password rejection), or on a timeout-scheduler tick (whose flag drops
happen via its `ServerTimeout` liveness disconnect or via the
`ServerTimeout`-driven resolution of a pending Login). No other step
changes the flag. -/
theorem connected_flag_transitions (opts : Options) (c : Connection) (a : Action)
    (st : Connection) (out : List Output) (h : Step opts c a st out) :
    (c.connected = false → st.connected = true →
       ∃ p, a = .recv p ∧ Inbound p ∧ p.type = .login ∧ p.attrs.login = some true) ∧
    (c.connected = true → st.connected = false →
       (∃ p, a = .recv p ∧ p.type = .login ∧ p.attrs.login ≠ some true) ∨
       (∃ r, a = .disconnectBy r) ∨ (∃ t, a = .tickAt t)) := by
  cases h with
  | recv p st2 out2 hin hrec =>
    have hc := recieve_connected opts c p
    rw [hrec] at hc
    constructor
    · intro hcf hst
      rw [hst] at hc
      by_cases hcond : p.direction ≠ .split ∧ p.type = .login
      · rw [if_pos hcond] at hc
        refine ⟨p, rfl, hin, hcond.2, ?_⟩
        simpa using hc.symm
      · rw [if_neg hcond] at hc
        exact absurd (hc.trans hcf) (by simp)
    · intro hct hst
      rw [hst] at hc
      by_cases hcond : p.direction ≠ .split ∧ p.type = .login
      · rw [if_pos hcond] at hc
        left
        refine ⟨p, rfl, hcond.2, ?_⟩
        simpa using hc.symm
      · rw [if_neg hcond] at hc
        exact absurd (hc.trans hct) (by simp)
  | tickAt t st2 out2 htick =>
    constructor
    · intro hcf hst
      have h1 : (Connection.tick opts t c).1 = st := by rw [htick]
      have h2 := tick_connected opts t c (by rw [h1, hst])
      exact absurd (hcf.symm.trans h2) (by simp)
    · intro _ _
      exact Or.inr (Or.inr ⟨t, rfl⟩)
  | storeOk e st2 hs =>
    have hsc := store_connected c e st hs
    constructor
    · intro hcf hst
      rw [hst, hcf] at hsc
      exact absurd hsc (by simp)
    · intro hct hsf
      rw [hsf, hct] at hsc
      exact absurd hsc (by simp)
  | storeErr e err hs =>
    constructor <;> intro h1 h2 <;> rw [h1] at h2 <;> exact absurd h2 (by simp)
  | disconnectBy r st2 out2 hd =>
    constructor
    · intro hcf hst
      have h1 : st.connected = false := by
        have h2 : (Connection.disconnect opts c r).1 = st := by rw [hd]
        rw [← h2]
        simp [Connection.disconnect, Connection.cleanup]
      exact absurd (hst.symm.trans h1) (by simp)
    · intro _ _
      exact Or.inr (Or.inl ⟨r, rfl⟩)
  | seqRead =>
    have h1 : (Connection.sequenceRead c).2.connected = c.connected := rfl
    constructor
    · intro hcf hst
      exact absurd ((hcf.symm.trans (h1.symm.trans hst))) (by simp)
    · intro hct hsf
      exact absurd ((hct.symm.trans (h1.symm.trans hsf))) (by simp)


/-- Witness for `connected_flag_transitions`: receiving the decoded
Login-success packet on a fresh connection raises the flag, and the
theorem attributes it to that inbound packet. -/
theorem connected_flag_transitions_witness :
    ∃ p, Action.recv Fixtures.loginTruePkt = Action.recv p ∧ Inbound p ∧
      p.type = PacketType.login ∧ p.attrs.login = some true :=
  (connected_flag_transitions Fixtures.opts Connection.init (.recv Fixtures.loginTruePkt)
      (Connection.recieve Fixtures.opts Connection.init Fixtures.loginTruePkt).1
      (Connection.recieve Fixtures.opts Connection.init Fixtures.loginTruePkt).2
      (Step.recv Connection.init Fixtures.loginTruePkt _ _
        ⟨Fixtures.loginTrueBuf, by decide⟩ rfl)).1
    rfl (by decide)

/-! ### Multipart reassembly lemmas -/

/-- Delivering a concatenation of packet lists composes the two runs. -/
theorem deliverAll_append (opts : Options) (c : Connection) (l1 l2 : List Packet) :
    Connection.deliverAll opts c (l1 ++ l2) =
      ((Connection.deliverAll opts (Connection.deliverAll opts c l1).1 l2).1,
       (Connection.deliverAll opts c l1).2 ++
         (Connection.deliverAll opts (Connection.deliverAll opts c l1).1 l2).2) := by
  induction l1 generalizing c with
  | nil => simp [Connection.deliverAll]
  | cons p rest ih =>
    simp [Connection.deliverAll, ih]

/-- On a fully filled reassembly array, the concatenation loop yields the
`part` payloads of the slots in slot order. -/
theorem allParts_map_some (l : List Packet) :
    Connection.allParts (l.map some) =
      some ((l.map (fun q => q.attrs.part.getD [])).flatten) := by
  induction l with
  | nil => rfl
  | cons q rest ih => simp [Connection.allParts, ih]

/-- A table of the right length whose every slot is filled as prescribed
is exactly the map of its filler over the index range. -/
theorem full_table_eq (mp : List (Option Packet)) (n : Nat) (f : Nat → Packet)
    (hlen : mp.length = n) (hget : ∀ i, i < n → mp.getD i none = some (f i)) :
    mp = (List.range n).map (fun i => some (f i)) := by
  apply List.ext_getElem (by simp [hlen])
  intro i h1 h2
  have hi : i < n := by simpa [hlen] using h1
  have hg := hget i hi
  rw [List.getD_eq_getElem?_getD, List.getElem?_eq_getElem h1] at hg
  simp only [Option.getD_some] at hg
  simp [List.getElem_map, List.getElem_range, hg]


/-- A fragment whose index is not `total - 1`, arriving at an initialized
reassembly slot, is only stored: no output, the pending table untouched,
the slot updated by the JavaScript array assignment (allocating `total`
holes on first contact). -/
theorem recieve_frag_nonfinal (opts : Options) (s total j : Nat) (parts : Nat → Bytes)
    (st : Connection) (mp0 : List (Option Packet)) (hj : ¬ j + 1 = total)
    (hslot : st.multipart (s : Int) = some mp0) :
    (Connection.recieve opts st (mkFrag s total j (parts j))).2 = [] ∧
    (Connection.recieve opts st (mkFrag s total j (parts j))).1.packets = st.packets ∧
    (Connection.recieve opts st (mkFrag s total j (parts j))).1.multipart (s : Int) =
      some (jsSet (if mp0.length = 0 then List.replicate total none else mp0) j
        (mkFrag s total j (parts j))) := by
  simp [Connection.recieve, mkFrag, hj, Packet.sequence, upd, hslot]

/-- Storing a fresh fragment at index `j < total` preserves the
reassembly-table invariant, extending the arrived set by `j`. -/
theorem reassemblyTable_insert (s total j : Nat) (parts : Nat → Bytes) (done : List Nat)
    (mp : List (Option Packet)) (hjt : j < total) (hnd : j ∉ done)
    (htbl : reassemblyTable s total parts done mp) :
    reassemblyTable s total parts (done ++ [j])
      (jsSet (if mp.length = 0 then List.replicate total none else mp) j
        (mkFrag s total j (parts j))) := by
  rcases htbl with ⟨hd, hmp⟩ | ⟨hlen, hget⟩
  · subst hd
    subst hmp
    right
    rw [if_pos (show (List.length ([] : List (Option Packet))) = 0 from rfl)]
    constructor
    · simp [jsSet, hjt]
    · intro i hi
      rw [List.getD_eq_getElem?_getD]
      rw [show jsSet (List.replicate total (none : Option Packet)) j (mkFrag s total j (parts j)) =
        (List.replicate total (none : Option Packet)).set j (some (mkFrag s total j (parts j)))
        from by simp [jsSet, hjt]]
      rw [List.getElem?_set]
      by_cases hij : j = i
      · subst hij
        simp [hjt]
      · simp [List.getElem?_replicate, hi, hij, Ne.symm hij]
  · right
    have hlz : ¬ mp.length = 0 := by omega
    rw [if_neg hlz]
    constructor
    · simp [jsSet, hlen, hjt]
    · intro i hi
      rw [show jsSet mp j (mkFrag s total j (parts j)) =
        mp.set j (some (mkFrag s total j (parts j))) from by simp [jsSet, hlen, hjt]]
      rw [List.getD_eq_getElem?_getD, List.getElem?_set]
      by_cases hij : j = i
      · subst hij
        simp [hlen, hjt, hnd]
      · rw [if_neg hij]
        rw [← List.getD_eq_getElem?_getD]
        rw [hget i hi]
        by_cases hmem : i ∈ done
        · simp [hmem]
        · simp [hmem, hij, Ne.symm hij]


/-- Delivering any sequence of distinct fragments with indices below
`total - 1` to an initialized reassembly slot produces no output, leaves
the pending table untouched, and fills the slots of exactly the
delivered indices (the slot stays initialized throughout). -/
theorem deliver_frags (opts : Options) (s total : Nat) (parts : Nat → Bytes) :
    ∀ (ord done : List Nat) (st : Connection) (mp : List (Option Packet)),
      (∀ j ∈ ord, j + 1 < total) →
      (done ++ ord).Nodup →
      st.multipart (s : Int) = some mp →
      reassemblyTable s total parts done mp →
      (Connection.deliverAll opts st (ord.map (fun i => mkFrag s total i (parts i)))).2 = [] ∧
      (Connection.deliverAll opts st (ord.map (fun i => mkFrag s total i (parts i)))).1.packets
        = st.packets ∧
      ∃ mp2, (Connection.deliverAll opts st
          (ord.map (fun i => mkFrag s total i (parts i)))).1.multipart (s : Int) = some mp2 ∧
        reassemblyTable s total parts (done ++ ord) mp2 := by
  intro ord
  induction ord with
  | nil =>
    intro done st mp hbound hnd hslot htbl
    refine ⟨rfl, rfl, mp, ?_, ?_⟩
    · simpa [Connection.deliverAll] using hslot
    · simpa using htbl
  | cons j rest ih =>
    intro done st mp hbound hnd hslot htbl
    have hjlt : j + 1 < total := hbound j (by simp)
    have hj : ¬ j + 1 = total := by omega
    have hjt : j < total := by omega
    have hsplit := List.nodup_append.mp hnd
    have hnd' : j ∉ done := fun hmem => hsplit.2.2 hmem (by simp)
    obtain ⟨ho, hp, hm⟩ := recieve_frag_nonfinal opts s total j parts st mp hj hslot
    have htbl2 : reassemblyTable s total parts (done ++ [j])
        (jsSet (if mp.length = 0 then List.replicate total none else mp) j
          (mkFrag s total j (parts j))) :=
      reassemblyTable_insert s total j parts done mp hjt hnd' htbl
    have key := ih (done ++ [j]) (Connection.recieve opts st (mkFrag s total j (parts j))).1
      (jsSet (if mp.length = 0 then List.replicate total none else mp) j
        (mkFrag s total j (parts j)))
      (fun i hmem => hbound i (by simp [hmem]))
      (by simpa [List.append_assoc] using hnd)
      hm
      htbl2
    refine ⟨?_, ?_, ?_⟩
    · simp only [List.map_cons, Connection.deliverAll]
      rw [ho, key.1]
      rfl
    · simp only [List.map_cons, Connection.deliverAll]
      rw [key.2.1, hp]
    · simp only [List.map_cons, Connection.deliverAll]
      have hkey := key.2.2
      simpa [List.append_assoc] using hkey


/-- Resolving a synthetic Command Reply carrying `data` at a sequence
with a pending entry resolves that entry with the data (when the data is
not the literal `Unknown command`), clears the slot, emits the `command`
event for non-empty data, and leaves the reassembly table alone. -/
theorem resolve_data_reply (opts : Options) (c : Connection) (s : Nat) (d : Bytes) (pdg : Pending)
    (hpk : c.packets (s : Int) = some pdg) (hUC : ¬ d = Connection.unknownCommandBytes) :
    (Connection.resolve opts c ⟨.command, .reply, { data := some d, sequence := some s }⟩).2 =
      Output.resolveData (s : Int) pdg.packet.attrs.command (some d) ::
        (if d = [] then [] else [Output.emitCommand d true]) ∧
    (Connection.resolve opts c ⟨.command, .reply, { data := some d, sequence := some s }⟩).1.packets
      (s : Int) = none ∧
    (Connection.resolve opts c ⟨.command, .reply, { data := some d, sequence := some s }⟩).1.multipart
      = c.multipart := by
  refine ⟨?_, ?_, ?_⟩ <;>
    simp [Connection.resolve, Packet.sequence, hpk, hUC, upd]


/-- Projection of `mkFrag`. -/
theorem mkFrag_direction (s t i : Nat) (pt : Bytes) : (mkFrag s t i pt).direction = .split := rfl

/-- The `sequence` getter of a fragment. -/
theorem mkFrag_sequence (s t i : Nat) (pt : Bytes) :
    Packet.sequence (mkFrag s t i pt) = (s : Int) := by
  simp [Packet.sequence, mkFrag]

/-- Projection of `mkFrag`. -/
theorem mkFrag_attrs_total (s t i : Nat) (pt : Bytes) :
    (mkFrag s t i pt).attrs.total = some t := rfl

/-- Projection of `mkFrag`. -/
theorem mkFrag_attrs_index (s t i : Nat) (pt : Bytes) :
    (mkFrag s t i pt).attrs.index = some i := rfl

/-- Projection of `mkFrag`. -/
theorem mkFrag_attrs_sequence (s t i : Nat) (pt : Bytes) :
    (mkFrag s t i pt).attrs.sequence = some s := rfl

/-- Receiving the fragment with index `total - 1` when all other
fragments have already been stored completes the group: the synthetic
Command Reply carrying the concatenation of the parts in index order is
dispatched, the pending request at the sequence resolves with that data,
and the reassembly slot is cleared. -/
theorem recieve_final_frag (opts : Options) (s total : Nat) (parts : Nat → Bytes)
    (done : List Nat) (st : Connection) (mp : List (Option Packet)) (pdg : Pending)
    (htot : 1 ≤ total)
    (hmem : ∀ i : Nat, i ∈ done ↔ i < total - 1)
    (hslot : st.multipart (s : Int) = some mp)
    (htbl : reassemblyTable s total parts done mp)
    (hpk : st.packets (s : Int) = some pdg)
    (hUC : ¬ ((List.range total).map parts).flatten = Connection.unknownCommandBytes) :
    (Connection.recieve opts st (mkFrag s total (total - 1) (parts (total - 1)))).2 =
      Output.resolveData (s : Int) pdg.packet.attrs.command
          (some (((List.range total).map parts).flatten)) ::
        (if ((List.range total).map parts).flatten = [] then []
         else [Output.emitCommand (((List.range total).map parts).flatten) true]) ∧
    (Connection.recieve opts st (mkFrag s total (total - 1) (parts (total - 1)))).1.packets
      (s : Int) = none ∧
    (Connection.recieve opts st (mkFrag s total (total - 1) (parts (total - 1)))).1.multipart
      (s : Int) = some [] := by
  have htr : (total - 1) + 1 = total := by omega
  have hmp2 : jsSet (if mp.length = 0 then List.replicate total none else mp)
        (total - 1) (mkFrag s total (total - 1) (parts (total - 1))) =
      (List.range total).map (fun i => some (mkFrag s total i (parts i))) := by
    have hins := reassemblyTable_insert s total (total - 1) parts done
      mp (by omega) (fun hc => by simpa using (hmem _).mp hc) htbl
    rcases hins with ⟨hd, _⟩ | ⟨hlen, hget⟩
    · exact absurd hd (by simp)
    · refine full_table_eq _ total _ hlen ?_
      intro i hi
      rw [hget i hi]
      rw [if_pos]
      by_cases hit : i = total - 1
      · simp [hit]
      · refine List.mem_append.mpr (Or.inl ?_)
        exact (hmem i).mpr (by omega)
  have hall : Connection.allParts
      ((List.range total).map (fun i => some (mkFrag s total i (parts i)))) =
      some (((List.range total).map parts).flatten) := by
    rw [show (List.range total).map (fun i => some (mkFrag s total i (parts i))) =
        ((List.range total).map (fun i => mkFrag s total i (parts i))).map some from by
          simp [List.map_map, Function.comp_def]]
    rw [allParts_map_some]
    congr 1
    rw [List.map_map]
    simp [Function.comp_def, mkFrag]
  refine ⟨?_, ?_, ?_⟩ <;>
    simp only [Connection.recieve, mkFrag_direction, mkFrag_sequence, mkFrag_attrs_total,
      mkFrag_attrs_index, mkFrag_attrs_sequence, Option.getD_some, htr, hslot, hmp2, hall,
      if_pos rfl, if_true] <;>
    simp [Connection.resolve, Packet.sequence, hpk, hUC, upd]
  have hcond : (∃ x < total, ¬parts x = []) ↔ ¬∀ a < total, parts a = [] := by
    push_neg
    rfl
  simp only [hcond, ite_not]


/-- Claim C2, amended: for a multipart group of `total` fragments at a
sequence `s` whose reassembly slot is initialized — the constructor and
`cleanup` initialize slots 0..254 only, and a split packet at an
uninitialized slot (sequence 255) throws `TypeError` instead of
reassembling — delivered in any order in which the fragment with index
`total - 1` arrives last (the only arrival orders for which the code
runs its completeness check when the group is complete), once all
fragments have arrived a synthetic Command Reply is produced whose data
is the concatenation of the fragments' `part` bytes in index order, and
the pending request at sequence `s` — provided one exists and the data is
not the literal `Unknown command` — is resolved with that data. -/
theorem multipart_reassembly_amended (opts : Options) (s total : Nat) (parts : Nat → Bytes)
    (ord : List Nat) (c : Connection) (pdg : Pending)
    (htot : 1 ≤ total)
    (hperm : ord.Perm (List.range (total - 1)))
    (hmp : c.multipart (s : Int) = some [])
    (hpdg : c.packets (s : Int) = some pdg)
    (hUC : ¬ ((List.range total).map parts).flatten = Connection.unknownCommandBytes) :
    (Connection.deliverAll opts c (ord.map (fun i => mkFrag s total i (parts i)) ++
        [mkFrag s total (total - 1) (parts (total - 1))])).2 =
      Output.resolveData (s : Int) pdg.packet.attrs.command
          (some (((List.range total).map parts).flatten)) ::
        (if ((List.range total).map parts).flatten = [] then []
         else [Output.emitCommand (((List.range total).map parts).flatten) true]) ∧
    (Connection.deliverAll opts c (ord.map (fun i => mkFrag s total i (parts i)) ++
        [mkFrag s total (total - 1) (parts (total - 1))])).1.packets (s : Int) = none ∧
    (Connection.deliverAll opts c (ord.map (fun i => mkFrag s total i (parts i)) ++
        [mkFrag s total (total - 1) (parts (total - 1))])).1.multipart (s : Int) = some [] := by
  have hbound : ∀ j ∈ ord, j + 1 < total := by
    intro j hj
    have hjr := List.mem_range.mp (hperm.subset hj)
    omega
  have hnd : (([] : List Nat) ++ ord).Nodup := by
    simpa using hperm.nodup_iff.mpr (List.nodup_range _)
  obtain ⟨ho, hp, mp2, hslot2, htbl2⟩ := deliver_frags opts s total parts ord [] c [] hbound hnd
    hmp (Or.inl ⟨rfl, rfl⟩)
  have hmem : ∀ i : Nat, i ∈ (([] : List Nat) ++ ord) ↔ i < total - 1 := by
    intro i
    simp [hperm.mem_iff, List.mem_range]
  obtain ⟨f1, f2, f3⟩ := recieve_final_frag opts s total parts (([] : List Nat) ++ ord)
    (Connection.deliverAll opts c (ord.map (fun i => mkFrag s total i (parts i)))).1 mp2 pdg
    htot hmem hslot2 htbl2 (by rw [hp]; exact hpdg) hUC
  rw [deliverAll_append]
  refine ⟨?_, ?_, ?_⟩
  · dsimp only
    rw [ho]
    simp only [Connection.deliverAll, List.nil_append, List.append_nil]
    exact f1
  · dsimp only
    simp only [Connection.deliverAll]
    exact f2
  · dsimp only
    simp only [Connection.deliverAll]
    exact f3

end BattlEye

namespace BattlEye

/-- Witness for `multipart_reassembly_amended`: a 2-fragment group at
sequence 3 delivered in order 0 then 1 resolves the pending request with
`hw`. -/
theorem multipart_reassembly_amended_witness :
    (Connection.deliverAll Fixtures.opts Fixtures.cMulti
        ([0].map (fun i => mkFrag 3 2 i (Fixtures.partsWit i)) ++
          [mkFrag 3 2 (2 - 1) (Fixtures.partsWit (2 - 1))])).2 =
      Output.resolveData (3 : Int) Fixtures.pdgCmd.packet.attrs.command
          (some (((List.range 2).map Fixtures.partsWit).flatten)) ::
        (if ((List.range 2).map Fixtures.partsWit).flatten = [] then []
         else [Output.emitCommand (((List.range 2).map Fixtures.partsWit).flatten) true]) ∧
    (Connection.deliverAll Fixtures.opts Fixtures.cMulti
        ([0].map (fun i => mkFrag 3 2 i (Fixtures.partsWit i)) ++
          [mkFrag 3 2 (2 - 1) (Fixtures.partsWit (2 - 1))])).1.packets (3 : Int) = none ∧
    (Connection.deliverAll Fixtures.opts Fixtures.cMulti
        ([0].map (fun i => mkFrag 3 2 i (Fixtures.partsWit i)) ++
          [mkFrag 3 2 (2 - 1) (Fixtures.partsWit (2 - 1))])).1.multipart (3 : Int) = some [] :=
  multipart_reassembly_amended Fixtures.opts 3 2 Fixtures.partsWit [0] Fixtures.cMulti
    Fixtures.pdgCmd (by norm_num) (by decide) (by decide) (by decide) (by decide)

/-- Why reassembly is limited to initialized slots: a split fragment at
sequence 255 — a value the decoder can emit — reads `.length` of the
uninitialized `this.multipart[255]` and throws `TypeError` (rejecting the
async `recieve`'s promise). Nothing is stored, the slot stays
uninitialized, and no pending request resolves. -/
theorem recieve_split_255_typeerror :
    Connection.init.multipart (255 : Int) = none ∧
    (Connection.recieve Fixtures.opts Connection.init (mkFrag 255 2 0 [104])).2 =
      [Output.thrownTypeError] ∧
    (Connection.recieve Fixtures.opts Connection.init (mkFrag 255 2 0 [104])).1.multipart
      (255 : Int) = none ∧
    (Connection.recieve Fixtures.opts Connection.init (mkFrag 255 2 0 [104])).1.packets
      (255 : Int) = none := by
  decide

end BattlEye
